import Mathlib

/-!
# Five-phase stepper drive over an MCP23S17 port expander

A shallow embedding of `spi_MCP23S17.c`: the button controller `chk_btn`
(run from the periodic timer callback `Timer2`), the step output routine
`set_mcp_pwm`, and the body of the endless loop of `main`.

Conventions of the embedding.

* `int` is the 32-bit two's-complement integer of the target (RP2040).  Values
  are carried as `Int` and the result of every `int` addition or subtraction
  goes through `toInt32`, which wraps modulo `2 ^ 32` into
  `[-2 ^ 31, 2 ^ 31 - 1]`, as the add and subtract instructions of the target do.
* `uint8_t` values are carried as `Nat` and reduced modulo `256` where the
  source stores into a `uint8_t`.
* Calls into the Pico SDK that drive hardware (`pwm_set_chan_level`,
  `spi_write_blocking`, `spi_write_read_blocking`, `gpio_put`, `sleep_ms`)
  and the diagnostic `printf` calls of `set_mcp_pwm` are recorded, in program
  order, as a list of `Out` events carrying the argument values the callee
  receives: an `int` passed for the `uint16_t level` of `pwm_set_chan_level`
  goes through `toUInt16`, one passed for the `uint32_t ms` of `sleep_ms`
  through `toUInt32`.  The `printf` calls of `chk_btn` only write to the
  diagnostic stream and are left out.
-/

namespace StepDrive

/-! ## Constants (`#define`) -/

def GPIOA : Nat := 0x12
def GPIOB : Nat := 0x13
def M_WRITE : Nat := 0x40
def M_READ : Nat := 0x41
def wrap : Int := 4095
def imax : Nat := 5
def msdef : Int := 250
def msmax : Int := 4000
def msmin : Int := 15

/-- Board constant of the Pico SDK: the pin of the on-board LED. -/
def PICO_DEFAULT_LED_PIN : Nat := 25

/-- Result of an `int` operation on the target: wrap into the signed 32-bit range. -/
def toInt32 (x : Int) : Int := (x + 2147483648) % 4294967296 - 2147483648

/-- Conversion of an `int` to `uint16_t`: reduction modulo `2 ^ 16`. -/
def toUInt16 (x : Int) : Int := x % 65536

/-- Conversion of an `int` to `uint32_t`: reduction modulo `2 ^ 32`. -/
def toUInt32 (x : Int) : Int := x % 4294967296

/-! ## Global tables -/

/-- PWM pins, `uint8_t ph_pin[5]`. -/
def ph_pin : List Nat := [5, 6, 7, 8, 9]

/-- Button pins, `uint8_t ipin[imax]`. -/
def ipin : List Nat := [21, 22, 26, 27, 28]

/-- Drive table, `signed char ptn[20][5]`. -/
def ptn : List (List Int) :=
  [[-1, 0, 1, 1, 0],
   [-1, 0, 1, 0, 0],
   [-1, 0, 1, 0, -1],
   [0, 0, 1, 0, -1],
   [0, 1, 1, 0, -1],
   [0, 1, 0, 0, -1],
   [0, 1, 0, -1, -1],
   [0, 1, 0, -1, 0],
   [1, 1, 0, -1, 0],
   [1, 0, 0, -1, 0],
   [1, 0, -1, -1, 0],
   [1, 0, -1, 0, 0],
   [1, 0, -1, 0, 1],
   [0, 0, -1, 0, 1],
   [0, -1, -1, 0, 1],
   [0, -1, 0, 0, 1],
   [0, -1, 0, 1, 1],
   [0, -1, 0, 1, 0],
   [-1, -1, 0, 1, 0],
   [-1, 0, 0, 1, 0]]

/-! ## Program state -/

/-- The variables of the program: the globals `ms`, `l`, `duty`, `K`, `pflag`,
`LV` written by `chk_btn`, and the locals `J`, `L` of `main` (which shadow the
globals of the same name; those globals are never used). -/
structure State where
  ms : Int
  l : Int
  duty : Int
  K : Int
  pflag : Bool
  LV : List Bool
  J : Int
  L : Bool
deriving DecidableEq, Repr

/-- State at the first iteration of the loop of `main`: `ms = msdef`, `l` has no
initialiser (static storage, hence `0`), `duty = wrap / 2`, `K = 0`, `J = 0`. -/
def init : State :=
  { ms := msdef, l := 0, duty := wrap / 2, K := 0, pflag := false,
    LV := List.replicate imax false, J := 0, L := true }

/-! ## `chk_btn` -/

/-- The pin-reading loop of `chk_btn`: `LV[q] = gpio_states & (1u << ipin[q])`. -/
def read_LV (gpio_states : Nat) : List Bool :=
  (List.range imax).map fun q => decide (gpio_states &&& (1 <<< ipin.getD q 0) ≠ 0)

/-- One run of `chk_btn` on the pin snapshot `gpio_states` returned by `gpio_get_all`. -/
def chk_btn (gpio_states : Nat) (s : State) : State :=
  let s := { s with LV := read_LV gpio_states }
  if !(s.LV.getD 0 false) then
    let ms := toInt32 (s.ms + s.l)
    let ms := if ms > msmax then msmax else ms
    { s with ms := ms, l := toInt32 (s.l + 5), pflag := true }
  else if !(s.LV.getD 2 false) then
    let ms := toInt32 (s.ms - s.l)
    let ms := if ms < msmin then msmin else ms
    { s with ms := ms, l := toInt32 (s.l + 5), pflag := true }
  else if !(s.LV.getD 3 false) then
    let K := if s.K = 0 then 1 else if s.K = 1 then 2 else 0
    { s with ms := msdef, duty := wrap / 2, K := K, l := 10, pflag := true }
  else if !(s.LV.getD 4 false) then
    let duty := toInt32 (s.duty + s.l)
    let duty := if duty ≥ wrap then wrap else duty
    { s with duty := duty, l := toInt32 (s.l + 5), pflag := true }
  else if !(s.LV.getD 1 false) then
    let duty := toInt32 (s.duty - s.l)
    let duty := if duty < 5 then 5 else duty
    { s with duty := duty, l := toInt32 (s.l + 5), pflag := true }
  else
    { s with l := 5, pflag := false }

/-- The timer callback fires once per snapshot: run `chk_btn` on each in turn. -/
def ticks (gs : List Nat) (s : State) : State :=
  gs.foldl (fun st g => chk_btn g st) s

/-- Input `q` is active on a snapshot when its pin reads low, i.e. `!LV[q]`
(the buttons pull the line to ground against the pull-up). -/
def active (gpio_states : Nat) (q : Nat) : Bool :=
  decide (gpio_states &&& (1 <<< ipin.getD q 0) = 0)

/-- The order in which `chk_btn` tests the inputs: period-up, period-down,
reset, duty-up, duty-down. -/
def priority : List Nat := [0, 2, 3, 4, 1]

/-- The honoured action of a snapshot: the first active input in `priority` order. -/
def honoured (gpio_states : Nat) : Option Nat :=
  priority.find? (active gpio_states)

/-- Snapshot with the five button lines high and every other line low. -/
def all_released : Nat :=
  (ipin.map fun p => 1 <<< p).sum

/-- Snapshot on which input `q` alone is active. -/
def only_pressed (q : Nat) : Nat :=
  all_released - (1 <<< ipin.getD q 0)

/-- Clamp `x` into `[lo, hi]`. -/
def clamp (x lo hi : Int) : Int :=
  if x < lo then lo else if x > hi then hi else x

/-- A state is reachable in `n` ticks when `n` snapshots lead to it from `init`. -/
def ReachableIn (n : Nat) (s : State) : Prop :=
  ∃ gs : List Nat, gs.length = n ∧ ticks gs init = s

/-! ## `set_mcp_pwm` -/

/-- Calls that leave the program, with their arguments. -/
inductive Out where
  | pwm_set_chan_level (slice_num chan : Nat) (level : Int)
  | spi_write_blocking (src : List Nat)
  | spi_write_read_blocking (src : List Nat)
  | print_bin (digits : List Char)
  | printf (fmt : String) (args : List Int)
  | gpio_put (pin : Nat) (value : Bool)
  | sleep_ms (ms : Int)
deriving DecidableEq, Repr

/-- Conversion `(int8_t)value` of a byte. -/
def toInt8 (value : Nat) : Int :=
  if value % 256 ≥ 128 then (value % 256 : Nat) - 256 else (value % 256 : Nat)

/-- Binary display `print_bin`: digit `i` is `(int8_t)value & (128 >> i) ? 1 : 0`. -/
def print_bin (value : Nat) : Out :=
  Out.print_bin ((List.range 8).map fun i =>
    if Int.land (toInt8 value) (((128 : Nat) >>> i : Nat) : Int) ≠ 0 then '1' else '0')

/-- Locals of the phase loop of `set_mcp_pwm`: the port bytes `a`, `b` and the
calls made so far. -/
structure Ports where
  a : Nat
  b : Nat
  out : List Out
deriving DecidableEq, Repr

/-- Body of `for (int q = 0; q < 5; q++)` in `set_mcp_pwm`, on row `ptn[n]`. -/
def phase_step (duty : Int) (row : List Int) (acc : Ports) (q : Nat) : Ports :=
  let ch := ph_pin.getD q 0 % 2
  let nn := row.getD q 0
  let mm := ph_pin.getD q 0 / 2
  if nn = 0 then
    { acc with out := acc.out ++ [Out.pwm_set_chan_level mm ch 0] }
  else
    let acc := { acc with out := acc.out ++ [Out.pwm_set_chan_level mm ch (toUInt16 duty)] }
    if nn = 1 then
      if ph_pin.getD q 0 < 8 then
        { acc with a := (acc.a + (1 <<< ph_pin.getD q 0)) % 256 }
      else
        { acc with b := (acc.b + (1 <<< (ph_pin.getD q 0 - 8))) % 256 }
    else
      acc

/-- The phase loop of `set_mcp_pwm`, from `a = 0, b = 0`. -/
def phase_loop (duty : Int) (row : List Int) : Ports :=
  (List.range 5).foldl (phase_step duty row) { a := 0, b := 0, out := [] }

/-- Row `ptn[n]`; `none` when `n` is outside the table. -/
def ptn_row (n : Int) : Option (List Int) :=
  if n < 0 then none else ptn.get? n.toNat

/-- One call `set_mcp_pwm(n)` with the global `duty`; `rxA` and `rxB` are the
bytes the bus returns in `buffer[2]` on the two read transactions.  The result
is the sequence of calls made, or `none` when `ptn[n]` is out of bounds.  The
`%5.1f` argument `(float)duty / (float)wrap * 100` is recorded as `duty`. -/
def set_mcp_pwm (duty : Int) (n : Int) (rxA rxB : Nat) : Option (List Out) :=
  match ptn_row n with
  | none => none
  | some row =>
    let p := phase_loop duty row
    let out := p.out ++ [print_bin p.b, print_bin p.a]
    let out_buf : List Nat := [0, 0, 0]
    let out_buf := out_buf.set 0 M_WRITE
    let out_buf := out_buf.set 1 GPIOA
    let out_buf := out_buf.set 2 p.a
    let out := out ++ [Out.spi_write_blocking out_buf]
    let out_buf := out_buf.set 1 GPIOB
    let out_buf := out_buf.set 2 p.b
    let out := out ++ [Out.spi_write_blocking out_buf]
    let out_buf := out_buf.set 0 M_READ
    let out_buf := out_buf.set 1 GPIOA
    let out_buf := out_buf.set 2 0
    let out := out ++ [Out.spi_write_read_blocking out_buf]
    let aa := rxA % 256
    let out := out ++ [Out.printf "a %d /" [aa]]
    let out_buf := out_buf.set 1 GPIOB
    let out_buf := out_buf.set 2 0
    let out := out ++ [Out.spi_write_read_blocking out_buf]
    let bb := rxB % 256
    let out := out ++ [Out.printf "%d %5.1f " [n, duty]]
    some (out ++ [Out.printf "a:%2x b:%2x\n" [aa, bb]])

/-- The PWM levels programmed by a sequence of calls, as `(slice, channel, level)`. -/
def pwm_levels : List Out → List (Nat × Nat × Int)
  | [] => []
  | Out.pwm_set_chan_level m c v :: os => (m, c, v) :: pwm_levels os
  | _ :: os => pwm_levels os

/-- The bus transactions of a sequence of calls; `true` marks a read transaction. -/
def bus_frames : List Out → List (Bool × List Nat)
  | [] => []
  | Out.spi_write_blocking f :: os => (false, f) :: bus_frames os
  | Out.spi_write_read_blocking f :: os => (true, f) :: bus_frames os
  | _ :: os => bus_frames os

/-! ## The loop of `main` -/

/-- The update of the step index `J` after `set_mcp_pwm(J)`, under direction mode `K`. -/
def advance (K J : Int) : Int :=
  if K = 0 then
    let J := toInt32 (J + 1)
    if J ≥ 20 then 0 else J
  else if K = 1 then
    let J := toInt32 (J - 1)
    if J < 0 then 19 else J
  else
    J

/-- One iteration of `while (true)` in `main`. -/
def loop_body (rxA rxB : Nat) (s : State) : Option (State × List Out) :=
  match set_mcp_pwm s.duty s.J rxA rxB with
  | none => none
  | some out =>
    let J := advance s.K s.J
    let L := !s.L
    some ({ s with J := J, L := L },
      out ++ [Out.gpio_put PICO_DEFAULT_LED_PIN L, Out.sleep_ms (toUInt32 s.ms)])

/-- What one iteration meets: the values of the shared scalars left by the
timer callback, and the two bytes read back from the bus. -/
structure Obs where
  ms : Int
  duty : Int
  K : Int
  rxA : Nat
  rxB : Nat

/-- A run of the loop of `main`: one iteration per observation. -/
def main_loop : List Obs → State → Option (State × List Out)
  | [], s => some (s, [])
  | o :: os, s =>
    match loop_body o.rxA o.rxB { s with ms := o.ms, duty := o.duty, K := o.K } with
    | none => none
    | some (s1, out1) =>
      match main_loop os s1 with
      | none => none
      | some (s2, out2) => some (s2, out1 ++ out2)

/-! ## Predicates and inputs used in the statements -/

/-- Bounds on the period and on the accumulator after `n` ticks. -/
def AccBounded (n : Nat) (s : State) : Prop :=
  15 ≤ s.ms ∧ s.ms ≤ 4000 ∧ 0 ≤ s.l ∧ s.l ≤ 5 * (n : Int) + 5

/-- Bounds on the duty value. -/
def DutyBounded (s : State) : Prop :=
  5 ≤ s.duty ∧ s.duty ≤ 4095

/-- The snapshots of a press of reset followed by `n` ticks with input `q` held. -/
def reset_then_hold (q n : Nat) : List Nat :=
  only_pressed 3 :: List.replicate n (only_pressed q)

/-- The `int` range of the target. -/
def in_int32 (x : Int) : Prop := -2147483648 ≤ x ∧ x ≤ 2147483647

/-- The text of `chk_btn` with every `int` operation taken in the unbounded
integers (no `toInt32`); `chk_btn` is compared with it. -/
def chk_btn_unbounded (gpio_states : Nat) (s : State) : State :=
  let s := { s with LV := read_LV gpio_states }
  if !(s.LV.getD 0 false) then
    let ms := s.ms + s.l
    let ms := if ms > msmax then msmax else ms
    { s with ms := ms, l := s.l + 5, pflag := true }
  else if !(s.LV.getD 2 false) then
    let ms := s.ms - s.l
    let ms := if ms < msmin then msmin else ms
    { s with ms := ms, l := s.l + 5, pflag := true }
  else if !(s.LV.getD 3 false) then
    let K := if s.K = 0 then 1 else if s.K = 1 then 2 else 0
    { s with ms := msdef, duty := wrap / 2, K := K, l := 10, pflag := true }
  else if !(s.LV.getD 4 false) then
    let duty := s.duty + s.l
    let duty := if duty ≥ wrap then wrap else duty
    { s with duty := duty, l := s.l + 5, pflag := true }
  else if !(s.LV.getD 1 false) then
    let duty := s.duty - s.l
    let duty := if duty < 5 then 5 else duty
    { s with duty := duty, l := s.l + 5, pflag := true }
  else
    { s with l := 5, pflag := false }

/-- Runs of `chk_btn_unbounded`, as `ticks` for `chk_btn`. -/
def ticks_unbounded (gs : List Nat) (s : State) : State :=
  gs.foldl (fun st g => chk_btn_unbounded g st) s

/-- The calls that only write to the diagnostic stream. -/
def is_diagnostic : Out → Bool
  | Out.print_bin _ => true
  | Out.printf _ _ => true
  | _ => false

/-- The calls of a trace that reach the hardware: everything but the diagnostics. -/
def hardware_calls (out : List Out) : List Out :=
  out.filter fun o => !is_diagnostic o

/-- The startup state with `duty` and `l` replaced. -/
def with_duty_acc (duty l : Int) : State :=
  { init with duty := duty, l := l }

/-! # Lemmas -/

/-! ## Lemmas on `chk_btn` -/

theorem read_LV_eq (g : Nat) :
    read_LV g = [!active g 0, !active g 1, !active g 2, !active g 3, !active g 4] := by
  simp [read_LV, active, imax, List.range_succ, ipin]

theorem ticks_append (gs hs : List Nat) (s : State) :
    ticks (gs ++ hs) s = ticks hs (ticks gs s) := by
  simp [ticks, List.foldl_append]

theorem ticks_cons (g : Nat) (gs : List Nat) (s : State) :
    ticks (g :: gs) s = ticks gs (chk_btn g s) := rfl

theorem ticks_replicate_succ (k g : Nat) (s : State) :
    ticks (List.replicate (k + 1) g) s = chk_btn g (ticks (List.replicate k g) s) := by
  rw [List.replicate_succ', ticks_append]; rfl

/-- What `chk_btn` does on a tick whose honoured action is period-up. -/
theorem chk_btn_on_period_up (g : Nat) (s : State) (h : honoured g = some 0) :
    (chk_btn g s).ms = (if toInt32 (s.ms + s.l) > msmax then msmax else toInt32 (s.ms + s.l)) ∧
    (chk_btn g s).l = toInt32 (s.l + 5) ∧
    (chk_btn g s).duty = s.duty ∧ (chk_btn g s).K = s.K := by
  revert h
  simp only [chk_btn, read_LV_eq, honoured, priority, List.find?]
  cases active g 0 <;> cases active g 2 <;> cases active g 3 <;> cases active g 4 <;>
    cases active g 1 <;> simp

/-- What `chk_btn` does on a tick whose honoured action is period-down. -/
theorem chk_btn_on_period_down (g : Nat) (s : State) (h : honoured g = some 2) :
    (chk_btn g s).ms = (if toInt32 (s.ms - s.l) < msmin then msmin else toInt32 (s.ms - s.l)) ∧
    (chk_btn g s).l = toInt32 (s.l + 5) ∧
    (chk_btn g s).duty = s.duty ∧ (chk_btn g s).K = s.K := by
  revert h
  simp only [chk_btn, read_LV_eq, honoured, priority, List.find?]
  cases active g 0 <;> cases active g 2 <;> cases active g 3 <;> cases active g 4 <;>
    cases active g 1 <;> simp

/-- What `chk_btn` does on a tick whose honoured action is reset. -/
theorem chk_btn_on_reset (g : Nat) (s : State) (h : honoured g = some 3) :
    (chk_btn g s).ms = msdef ∧ (chk_btn g s).l = 10 ∧ (chk_btn g s).duty = wrap / 2 ∧
    (chk_btn g s).K = (if s.K = 0 then 1 else if s.K = 1 then 2 else 0) := by
  revert h
  simp only [chk_btn, read_LV_eq, honoured, priority, List.find?]
  cases active g 0 <;> cases active g 2 <;> cases active g 3 <;> cases active g 4 <;>
    cases active g 1 <;> simp

/-- What `chk_btn` does on a tick whose honoured action is duty-up. -/
theorem chk_btn_on_duty_up (g : Nat) (s : State) (h : honoured g = some 4) :
    (chk_btn g s).duty = (if toInt32 (s.duty + s.l) ≥ wrap then wrap else toInt32 (s.duty + s.l)) ∧
    (chk_btn g s).l = toInt32 (s.l + 5) ∧
    (chk_btn g s).ms = s.ms ∧ (chk_btn g s).K = s.K := by
  revert h
  simp only [chk_btn, read_LV_eq, honoured, priority, List.find?]
  cases active g 0 <;> cases active g 2 <;> cases active g 3 <;> cases active g 4 <;>
    cases active g 1 <;> simp

/-- What `chk_btn` does on a tick whose honoured action is duty-down. -/
theorem chk_btn_on_duty_down (g : Nat) (s : State) (h : honoured g = some 1) :
    (chk_btn g s).duty = (if toInt32 (s.duty - s.l) < 5 then 5 else toInt32 (s.duty - s.l)) ∧
    (chk_btn g s).l = toInt32 (s.l + 5) ∧
    (chk_btn g s).ms = s.ms ∧ (chk_btn g s).K = s.K := by
  revert h
  simp only [chk_btn, read_LV_eq, honoured, priority, List.find?]
  cases active g 0 <;> cases active g 2 <;> cases active g 3 <;> cases active g 4 <;>
    cases active g 1 <;> simp

/-- What `chk_btn` does on a tick with no active input. -/
theorem chk_btn_on_release (g : Nat) (s : State) (h : honoured g = none) :
    (chk_btn g s).ms = s.ms ∧ (chk_btn g s).l = 5 ∧
    (chk_btn g s).duty = s.duty ∧ (chk_btn g s).K = s.K := by
  revert h
  simp only [chk_btn, read_LV_eq, honoured, priority, List.find?]
  cases active g 0 <;> cases active g 2 <;> cases active g 3 <;> cases active g 4 <;>
    cases active g 1 <;> simp

/-- The honoured action is one of the five inputs. -/
theorem honoured_cases (g : Nat) :
    honoured g = some 0 ∨ honoured g = some 2 ∨ honoured g = some 3 ∨
    honoured g = some 4 ∨ honoured g = some 1 ∨ honoured g = none := by
  simp only [honoured, priority, List.find?]
  cases active g 0 <;> cases active g 2 <;> cases active g 3 <;> cases active g 4 <;>
    cases active g 1 <;> simp

theorem honoured_only_pressed :
    honoured (only_pressed 0) = some 0 ∧ honoured (only_pressed 2) = some 2 ∧
    honoured (only_pressed 3) = some 3 ∧ honoured (only_pressed 4) = some 4 ∧
    honoured (only_pressed 1) = some 1 ∧ honoured all_released = none := by
  decide

theorem toInt32_of_range (x : Int) (h1 : -2147483648 ≤ x) (h2 : x ≤ 2147483647) :
    toInt32 x = x := by
  unfold toInt32; omega

theorem chk_btn_accBounded (n : Nat) (hn : n ≤ 429495928) (g : Nat) (s : State)
    (h : AccBounded n s) : AccBounded (n + 1) (chk_btn g s) := by
  obtain ⟨h1, h2, h3, h4⟩ := h
  have hn' : (n : Int) ≤ 429495928 := by exact_mod_cast hn
  unfold AccBounded
  rcases honoured_cases g with c | c | c | c | c | c
  · obtain ⟨e1, e2, _, _⟩ := chk_btn_on_period_up g s c
    rw [e1, e2]; simp only [toInt32, msmax]; split_ifs <;> omega
  · obtain ⟨e1, e2, _, _⟩ := chk_btn_on_period_down g s c
    rw [e1, e2]; simp only [toInt32, msmin]; split_ifs <;> omega
  · obtain ⟨e1, e2, _, _⟩ := chk_btn_on_reset g s c
    rw [e1, e2]; simp only [msdef]; omega
  · obtain ⟨_, e2, e1, _⟩ := chk_btn_on_duty_up g s c
    rw [e1, e2]; simp only [toInt32]; omega
  · obtain ⟨_, e2, e1, _⟩ := chk_btn_on_duty_down g s c
    rw [e1, e2]; simp only [toInt32]; omega
  · obtain ⟨e1, e2, _, _⟩ := chk_btn_on_release g s c
    rw [e1, e2]; omega

theorem chk_btn_dutyBounded (n : Nat) (hn : n ≤ 429495909) (g : Nat) (s : State)
    (h : AccBounded n s) (hd : DutyBounded s) : DutyBounded (chk_btn g s) := by
  obtain ⟨h1, h2, h3, h4⟩ := h
  obtain ⟨d1, d2⟩ := hd
  have hn' : (n : Int) ≤ 429495909 := by exact_mod_cast hn
  unfold DutyBounded
  rcases honoured_cases g with c | c | c | c | c | c
  · obtain ⟨_, _, e, _⟩ := chk_btn_on_period_up g s c
    rw [e]; omega
  · obtain ⟨_, _, e, _⟩ := chk_btn_on_period_down g s c
    rw [e]; omega
  · obtain ⟨_, _, e, _⟩ := chk_btn_on_reset g s c
    rw [e]; simp only [wrap]; omega
  · obtain ⟨e, _, _, _⟩ := chk_btn_on_duty_up g s c
    rw [e]; simp only [toInt32, wrap]; split_ifs <;> omega
  · obtain ⟨e, _, _, _⟩ := chk_btn_on_duty_down g s c
    rw [e]; simp only [toInt32]; split_ifs <;> omega
  · obtain ⟨_, _, e, _⟩ := chk_btn_on_release g s c
    rw [e]; omega

theorem init_accBounded : AccBounded 0 init := by
  simp [AccBounded, init, msdef]

theorem init_dutyBounded : DutyBounded init := by
  simp [DutyBounded, init, wrap]

theorem ticks_accBounded (gs : List Nat) :
    ∀ (n : Nat) (s : State), AccBounded n s → n + gs.length ≤ 429495929 →
      AccBounded (n + gs.length) (ticks gs s) := by
  induction gs with
  | nil => intro n s h _; simpa [ticks] using h
  | cons g gs ih =>
    intro n s h hlen
    simp only [List.length_cons] at hlen
    have h1 := chk_btn_accBounded n (by omega) g s h
    have h2 := ih (n + 1) (chk_btn g s) h1 (by omega)
    rw [ticks_cons, List.length_cons]
    have e : n + (gs.length + 1) = n + 1 + gs.length := by omega
    rw [e]; exact h2

theorem ticks_dutyBounded (gs : List Nat) :
    ∀ (n : Nat) (s : State), AccBounded n s → DutyBounded s → n + gs.length ≤ 429495910 →
      DutyBounded (ticks gs s) := by
  induction gs with
  | nil => intro n s _ h _; simpa [ticks] using h
  | cons g gs ih =>
    intro n s h hd hlen
    simp only [List.length_cons] at hlen
    have h1 := chk_btn_accBounded n (by omega) g s h
    have h2 := chk_btn_dutyBounded n (by omega) g s h hd
    rw [ticks_cons]
    exact ih (n + 1) (chk_btn g s) h1 h2 (by omega)

theorem hold_duty_up (s : State) (hl : s.l = 10) (hd : s.duty = 2047) :
    ∀ k : Nat, k ≤ 429495909 →
      (ticks (List.replicate k (only_pressed 4)) s).l = 10 + 5 * (k : Int) ∧
      (2047 + 10 * (k : Int) ≤ (ticks (List.replicate k (only_pressed 4)) s).duty ∨
        (ticks (List.replicate k (only_pressed 4)) s).duty = 4095) ∧
      (ticks (List.replicate k (only_pressed 4)) s).duty ≤ 4095 := by
  intro k
  induction k with
  | zero => intro _; simp [ticks, hl, hd]
  | succ k ih =>
    intro hk
    obtain ⟨i1, i2, i3⟩ := ih (by omega)
    have hk' : (k : Int) ≤ 429495908 := by omega
    obtain ⟨e1, e2, _, _⟩ :=
      chk_btn_on_duty_up (only_pressed 4) (ticks (List.replicate k (only_pressed 4)) s)
        honoured_only_pressed.2.2.2.1
    have hl5 := toInt32_of_range (10 + 5 * (k : Int) + 5) (by omega) (by omega)
    have hdl := toInt32_of_range
      ((ticks (List.replicate k (only_pressed 4)) s).duty + (10 + 5 * (k : Int)))
      (by omega) (by omega)
    rw [ticks_replicate_succ, e1, e2, i1, hl5, hdl]
    simp only [wrap]
    push_cast
    split_ifs <;> omega

theorem hold_period_up (s : State) (hl : s.l = 10) (hd : s.ms = 250) :
    ∀ k : Nat, k ≤ 429495928 →
      (ticks (List.replicate k (only_pressed 0)) s).l = 10 + 5 * (k : Int) ∧
      (250 + 10 * (k : Int) ≤ (ticks (List.replicate k (only_pressed 0)) s).ms ∨
        (ticks (List.replicate k (only_pressed 0)) s).ms = 4000) ∧
      (ticks (List.replicate k (only_pressed 0)) s).ms ≤ 4000 := by
  intro k
  induction k with
  | zero => intro _; simp [ticks, hl, hd]
  | succ k ih =>
    intro hk
    obtain ⟨i1, i2, i3⟩ := ih (by omega)
    have hk' : (k : Int) ≤ 429495927 := by omega
    obtain ⟨e1, e2, _, _⟩ :=
      chk_btn_on_period_up (only_pressed 0) (ticks (List.replicate k (only_pressed 0)) s)
        honoured_only_pressed.1
    have hl5 := toInt32_of_range (10 + 5 * (k : Int) + 5) (by omega) (by omega)
    have hdl := toInt32_of_range
      ((ticks (List.replicate k (only_pressed 0)) s).ms + (10 + 5 * (k : Int)))
      (by omega) (by omega)
    rw [ticks_replicate_succ, e1, e2, i1, hl5, hdl]
    simp only [msmax]
    push_cast
    split_ifs <;> omega

theorem ticks_reset_then_hold (q n : Nat) (s : State) :
    ticks (reset_then_hold q (n + 1)) s =
      chk_btn (only_pressed q)
        (ticks (List.replicate n (only_pressed q)) (chk_btn (only_pressed 3) s)) := by
  rw [reset_then_hold, ticks_cons, ticks_replicate_succ]

theorem duty_overflow (n : Nat) (hn : n = 429495909) :
    (ticks (reset_then_hold 4 (n + 1)) init).duty = -2147483646 := by
  have hr := chk_btn_on_reset (only_pressed 3) init honoured_only_pressed.2.2.1
  have h2047 : (chk_btn (only_pressed 3) init).duty = 2047 := by rw [hr.2.2.1]; decide
  obtain ⟨i1, i2, i3⟩ := hold_duty_up (chk_btn (only_pressed 3) init) hr.2.1 h2047 n (by omega)
  obtain ⟨e1, _, _, _⟩ :=
    chk_btn_on_duty_up (only_pressed 4)
      (ticks (List.replicate n (only_pressed 4)) (chk_btn (only_pressed 3) init))
      honoured_only_pressed.2.2.2.1
  have hn' : (n : Int) = 429495909 := by exact_mod_cast hn
  have hl : (ticks (List.replicate n (only_pressed 4))
      (chk_btn (only_pressed 3) init)).l = 2147479555 := by omega
  have hd : (ticks (List.replicate n (only_pressed 4))
      (chk_btn (only_pressed 3) init)).duty = 4095 := by omega
  rw [ticks_reset_then_hold, e1, hl, hd]
  decide

theorem not_le_of_eq_neg {x : Int} (h : x = -2147483646) : ¬ (5 ≤ x) := by
  omega

theorem length_reset_then_hold (q n : Nat) : (reset_then_hold q n).length = n + 1 := by
  simp [reset_then_hold]

theorem period_overflow (n : Nat) (hn : n = 429495928) :
    (chk_btn (only_pressed 0) (ticks (reset_then_hold 0 n) init)).ms = -2147483646 ∧
    clamp ((ticks (reset_then_hold 0 n) init).ms + (ticks (reset_then_hold 0 n) init).l)
      msmin msmax = 4000 := by
  have hr := chk_btn_on_reset (only_pressed 3) init honoured_only_pressed.2.2.1
  obtain ⟨i1, i2, i3⟩ := hold_period_up (chk_btn (only_pressed 3) init) hr.2.1 hr.1 n (by omega)
  have hs : ticks (reset_then_hold 0 n) init =
      ticks (List.replicate n (only_pressed 0)) (chk_btn (only_pressed 3) init) := rfl
  obtain ⟨e1, _, _, _⟩ :=
    chk_btn_on_period_up (only_pressed 0)
      (ticks (List.replicate n (only_pressed 0)) (chk_btn (only_pressed 3) init))
      honoured_only_pressed.1
  have hn' : (n : Int) = 429495928 := by exact_mod_cast hn
  have hl : (ticks (List.replicate n (only_pressed 0))
      (chk_btn (only_pressed 3) init)).l = 2147479650 := by omega
  have hd : (ticks (List.replicate n (only_pressed 0))
      (chk_btn (only_pressed 3) init)).ms = 4000 := by omega
  rw [hs, e1, hl, hd]
  decide

/-! ## Lemmas on `set_mcp_pwm` and the loop of `main` -/

theorem ptn_row_some (n : Int) (h0 : 0 ≤ n) (h20 : n < 20) :
    ∃ row, ptn_row n = some row ∧ row.length = 5 := by
  interval_cases n <;> exact ⟨_, rfl, rfl⟩

theorem ptn_row_none (n : Int) (h : n < 0 ∨ 20 ≤ n) : ptn_row n = none := by
  unfold ptn_row
  rcases h with h | h
  · rw [if_pos h]
  · have hlen : ptn.length ≤ n.toNat := by
      have : ptn.length = 20 := rfl
      omega
    rw [if_neg (by omega)]
    exact List.get?_eq_none.mpr hlen

theorem pwm_levels_append (xs ys : List Out) :
    pwm_levels (xs ++ ys) = pwm_levels xs ++ pwm_levels ys := by
  induction xs with
  | nil => rfl
  | cons x xs ih => cases x <;> simp [pwm_levels, ih]

theorem bus_frames_append (xs ys : List Out) :
    bus_frames (xs ++ ys) = bus_frames xs ++ bus_frames ys := by
  induction xs with
  | nil => rfl
  | cons x xs ih => cases x <;> simp [bus_frames, ih]

/-- One pass of the phase loop programs one PWM level and touches no bus. -/
theorem phase_step_out (duty : Int) (row : List Int) (acc : Ports) (q : Nat) :
    pwm_levels (phase_step duty row acc q).out =
      pwm_levels acc.out ++
        [(ph_pin.getD q 0 / 2, ph_pin.getD q 0 % 2, if row.getD q 0 = 0 then 0 else toUInt16 duty)] ∧
    bus_frames (phase_step duty row acc q).out = bus_frames acc.out := by
  by_cases h0 : row.getD q 0 = 0
  · simp only [phase_step, if_pos h0]
    simp [pwm_levels_append, bus_frames_append, pwm_levels, bus_frames]
  · by_cases h1 : row.getD q 0 = 1
    · by_cases h8 : ph_pin.getD q 0 < 8
      · simp only [phase_step, if_neg h0, if_pos h1, if_pos h8]
        simp [pwm_levels_append, bus_frames_append, pwm_levels, bus_frames]
      · simp only [phase_step, if_neg h0, if_pos h1, if_neg h8]
        simp [pwm_levels_append, bus_frames_append, pwm_levels, bus_frames]
    · simp only [phase_step, if_neg h0, if_neg h1]
      simp [pwm_levels_append, bus_frames_append, pwm_levels, bus_frames]

/-- The port bytes after one pass do not depend on `duty`. -/
theorem phase_step_ports (duty duty' : Int) (row : List Int) (acc acc' : Ports) (q : Nat)
    (ha : acc.a = acc'.a) (hb : acc.b = acc'.b) :
    (phase_step duty row acc q).a = (phase_step duty' row acc' q).a ∧
    (phase_step duty row acc q).b = (phase_step duty' row acc' q).b := by
  by_cases h0 : row.getD q 0 = 0
  · simp only [phase_step, if_pos h0]
    exact ⟨ha, hb⟩
  · by_cases h1 : row.getD q 0 = 1
    · by_cases h8 : ph_pin.getD q 0 < 8
      · simp only [phase_step, if_neg h0, if_pos h1, if_pos h8, ha]
        exact ⟨trivial, hb⟩
      · simp only [phase_step, if_neg h0, if_pos h1, if_neg h8, hb]
        exact ⟨ha, trivial⟩
    · simp only [phase_step, if_neg h0, if_neg h1]
      exact ⟨ha, hb⟩

theorem phase_fold_out (duty : Int) (row : List Int) (qs : List Nat) :
    ∀ acc : Ports,
      pwm_levels (qs.foldl (phase_step duty row) acc).out =
        pwm_levels acc.out ++ qs.map (fun q =>
          (ph_pin.getD q 0 / 2, ph_pin.getD q 0 % 2, if row.getD q 0 = 0 then 0 else toUInt16 duty)) ∧
      bus_frames (qs.foldl (phase_step duty row) acc).out = bus_frames acc.out := by
  induction qs with
  | nil => intro acc; simp
  | cons q qs ih =>
    intro acc
    obtain ⟨h1, h2⟩ := ih (phase_step duty row acc q)
    obtain ⟨s1, s2⟩ := phase_step_out duty row acc q
    simp only [List.foldl_cons, List.map_cons]
    rw [h1, h2, s1, s2]
    simp

theorem phase_fold_ports (duty duty' : Int) (row : List Int) (qs : List Nat) :
    ∀ acc acc' : Ports, acc.a = acc'.a → acc.b = acc'.b →
      (qs.foldl (phase_step duty row) acc).a = (qs.foldl (phase_step duty' row) acc').a ∧
      (qs.foldl (phase_step duty row) acc).b = (qs.foldl (phase_step duty' row) acc').b := by
  induction qs with
  | nil => intro acc acc' ha hb; exact ⟨ha, hb⟩
  | cons q qs ih =>
    intro acc acc' ha hb
    obtain ⟨s1, s2⟩ := phase_step_ports duty duty' row acc acc' q ha hb
    exact ih _ _ s1 s2

/-- PWM levels and port bytes produced by the phase loop. -/
theorem phase_loop_spec (duty : Int) (row : List Int) :
    pwm_levels (phase_loop duty row).out = (List.range 5).map (fun q =>
      (ph_pin.getD q 0 / 2, ph_pin.getD q 0 % 2, if row.getD q 0 = 0 then 0 else toUInt16 duty)) ∧
    bus_frames (phase_loop duty row).out = [] ∧
    (phase_loop duty row).a = (phase_loop 0 row).a ∧
    (phase_loop duty row).b = (phase_loop 0 row).b := by
  obtain ⟨h1, h2⟩ := phase_fold_out duty row (List.range 5) { a := 0, b := 0, out := [] }
  obtain ⟨h3, h4⟩ := phase_fold_ports duty 0 row (List.range 5)
    { a := 0, b := 0, out := [] } { a := 0, b := 0, out := [] } rfl rfl
  exact ⟨by simpa [pwm_levels] using h1, by simpa [bus_frames] using h2, h3, h4⟩

/-- The calls of `set_mcp_pwm` on a row of the table. -/
theorem set_mcp_pwm_row (duty n : Int) (rxA rxB : Nat) (row : List Int)
    (h : ptn_row n = some row) :
    ∃ out, set_mcp_pwm duty n rxA rxB = some out ∧
      pwm_levels out = (List.range 5).map (fun q =>
        (ph_pin.getD q 0 / 2, ph_pin.getD q 0 % 2, if row.getD q 0 = 0 then 0 else toUInt16 duty)) ∧
      bus_frames out =
        [(false, [M_WRITE, GPIOA, (phase_loop duty row).a]),
         (false, [M_WRITE, GPIOB, (phase_loop duty row).b]),
         (true, [M_READ, GPIOA, 0]), (true, [M_READ, GPIOB, 0])] := by
  obtain ⟨h1, h2, _, _⟩ := phase_loop_spec duty row
  unfold set_mcp_pwm
  rw [h]
  refine ⟨_, rfl, ?_, ?_⟩
  · simp [pwm_levels_append, pwm_levels, print_bin, h1]
  · simp [bus_frames_append, bus_frames, print_bin, h2]

theorem advance_forward (i : Int) (h0 : 0 ≤ i) (h20 : i < 20) :
    advance 0 i = (i + 1) % 20 := by
  simp only [advance, toInt32]; split_ifs <;> omega

theorem advance_reverse (i : Int) (h0 : 0 ≤ i) (h20 : i < 20) :
    advance 1 i = (i - 1 + 20) % 20 := by
  simp only [advance, toInt32]; split_ifs <;> omega

theorem advance_stopped (K i : Int) (hK0 : K ≠ 0) (hK1 : K ≠ 1) : advance K i = i := by
  simp [advance, hK0, hK1]

theorem advance_range (K i : Int) (h0 : 0 ≤ i) (h20 : i < 20) :
    0 ≤ advance K i ∧ advance K i < 20 := by
  simp only [advance, toInt32]; split_ifs <;> omega

theorem iterate_forward (i : Int) (h0 : 0 ≤ i) (h20 : i < 20) (k : Nat) :
    (advance 0)^[k] i = (i + k) % 20 := by
  induction k with
  | zero => simp; omega
  | succ k ih =>
    rw [Function.iterate_succ_apply', ih, advance_forward _ (by omega) (by omega)]
    push_cast; omega

theorem iterate_reverse (i : Int) (h0 : 0 ≤ i) (h20 : i < 20) (k : Nat) :
    (advance 1)^[k] i = (i - k) % 20 := by
  induction k with
  | zero => simp; omega
  | succ k ih =>
    rw [Function.iterate_succ_apply', ih, advance_reverse _ (by omega) (by omega)]
    push_cast; omega

theorem loop_body_some (rxA rxB : Nat) (s : State) (h0 : 0 ≤ s.J) (h20 : s.J < 20) :
    ∃ out, loop_body rxA rxB s =
      some ({ s with J := advance s.K s.J, L := !s.L }, out) := by
  obtain ⟨row, hrow, _⟩ := ptn_row_some s.J h0 h20
  obtain ⟨out, hout, _, _⟩ := set_mcp_pwm_row s.duty s.J rxA rxB row hrow
  refine ⟨out ++ [Out.gpio_put PICO_DEFAULT_LED_PIN (!s.L), Out.sleep_ms (toUInt32 s.ms)], ?_⟩
  simp only [loop_body, hout]

theorem main_loop_some (obs : List Obs) :
    ∀ s : State, 0 ≤ s.J → s.J < 20 →
      ∃ s1 out, main_loop obs s = some (s1, out) ∧ 0 ≤ s1.J ∧ s1.J < 20 := by
  induction obs with
  | nil => intro s h0 h20; exact ⟨s, [], rfl, h0, h20⟩
  | cons o os ih =>
    intro s h0 h20
    obtain ⟨out, hout⟩ :=
      loop_body_some o.rxA o.rxB { s with ms := o.ms, duty := o.duty, K := o.K } h0 h20
    obtain ⟨r1, r2⟩ := advance_range o.K s.J h0 h20
    obtain ⟨s2, out2, h2, b0, b20⟩ :=
      ih { s with ms := o.ms, duty := o.duty, K := o.K, J := advance o.K s.J, L := !s.L } r1 r2
    exact ⟨s2, out ++ out2, by simp only [main_loop, hout, h2], b0, b20⟩

/-! ## Lemmas for the hold, release and overflow claims -/

theorem honoured_none_of_inactive (g : Nat) (h : ∀ q, q < 5 → active g q = false) :
    honoured g = none := by
  simp [honoured, priority, List.find?, h 0 (by decide), h 1 (by decide), h 2 (by decide),
    h 3 (by decide), h 4 (by decide)]

/-- One tick agrees with its unbounded reading while the sums stay in range. -/
theorem chk_btn_eq_unbounded (n : Nat) (hn : n ≤ 429495909) (g : Nat) (s : State)
    (h : AccBounded n s) (hd : DutyBounded s) : chk_btn g s = chk_btn_unbounded g s := by
  obtain ⟨h1, h2, h3, h4⟩ := h
  obtain ⟨d1, d2⟩ := hd
  have hn' : (n : Int) ≤ 429495909 := by exact_mod_cast hn
  have e1 := toInt32_of_range (s.ms + s.l) (by omega) (by omega)
  have e2 := toInt32_of_range (s.ms - s.l) (by omega) (by omega)
  have e3 := toInt32_of_range (s.duty + s.l) (by omega) (by omega)
  have e4 := toInt32_of_range (s.duty - s.l) (by omega) (by omega)
  have e5 := toInt32_of_range (s.l + 5) (by omega) (by omega)
  simp only [chk_btn, chk_btn_unbounded, e1, e2, e3, e4, e5]

theorem ticks_eq_unbounded (gs : List Nat) :
    ∀ (n : Nat) (s : State), AccBounded n s → DutyBounded s → n + gs.length ≤ 429495910 →
      ticks gs s = ticks_unbounded gs s := by
  induction gs with
  | nil => intro n s _ _ _; rfl
  | cons g gs ih =>
    intro n s h hd hlen
    simp only [List.length_cons] at hlen
    have h1 := chk_btn_accBounded n (by omega) g s h
    have h2 := chk_btn_dutyBounded n (by omega) g s h hd
    have h3 := chk_btn_eq_unbounded n (by omega) g s h hd
    have h4 := ih (n + 1) (chk_btn g s) h1 h2 (by omega)
    rw [ticks_cons, h4, h3]
    rfl

theorem ticks_reset_hold (gs : List Nat) :
    ∀ s : State, (s.K = 0 ∨ s.K = 1 ∨ s.K = 2) → gs ≠ [] →
      (∀ g, g ∈ gs → honoured g = some 3) →
      (ticks gs s).K = (s.K + (gs.length : Int)) % 3 ∧ (ticks gs s).ms = 250 ∧
      (ticks gs s).duty = 2047 ∧ (ticks gs s).l = 10 := by
  induction gs with
  | nil => intro s _ hne _; exact absurd rfl hne
  | cons g gs ih =>
    intro s hK _ hall
    obtain ⟨e1, e2, e3, e4⟩ := chk_btn_on_reset g s (hall g (List.mem_cons_self g gs))
    have hK1 : (chk_btn g s).K = (s.K + 1) % 3 := by
      rw [e4]; rcases hK with k | k | k <;> rw [k] <;> decide
    by_cases hgs : gs = []
    · subst hgs
      have ht : ticks [g] s = chk_btn g s := rfl
      rw [ht, List.length_singleton]
      refine ⟨by rw [hK1]; push_cast; rfl, by rw [e1]; rfl, by rw [e3]; decide, e2⟩
    · have hK' : (chk_btn g s).K = 0 ∨ (chk_btn g s).K = 1 ∨ (chk_btn g s).K = 2 := by
        rw [hK1]; omega
      obtain ⟨i1, i2, i3, i4⟩ :=
        ih (chk_btn g s) hK' hgs (fun x hx => hall x (List.mem_cons_of_mem g hx))
      rw [ticks_cons]
      refine ⟨?_, i2, i3, i4⟩
      rw [i1, hK1, List.length_cons]; push_cast; omega

/-- The hardware calls of `set_mcp_pwm` do not involve the bytes read back. -/
theorem set_mcp_pwm_hardware (duty n : Int) (rxA rxB : Nat) (row : List Int)
    (h : ptn_row n = some row) :
    ∃ out, set_mcp_pwm duty n rxA rxB = some out ∧
      hardware_calls out = hardware_calls (phase_loop duty row).out ++
        [Out.spi_write_blocking [M_WRITE, GPIOA, (phase_loop duty row).a],
         Out.spi_write_blocking [M_WRITE, GPIOB, (phase_loop duty row).b],
         Out.spi_write_read_blocking [M_READ, GPIOA, 0],
         Out.spi_write_read_blocking [M_READ, GPIOB, 0]] := by
  unfold set_mcp_pwm
  rw [h]
  refine ⟨_, rfl, ?_⟩
  simp [hardware_calls, is_diagnostic, List.filter_append, print_bin]

theorem chk_btn_J (g : Nat) (s : State) : (chk_btn g s).J = s.J ∧ (chk_btn g s).L = s.L := by
  simp only [chk_btn]
  split_ifs <;> exact ⟨rfl, rfl⟩

/-- After the long duty-up hold and one tick with no input active, the
accumulator is 5 and `duty` is negative; duty-up then leaves it negative. -/
theorem release_after_overflow (n : Nat) (hn : n = 429495909) :
    (ticks (reset_then_hold 4 (n + 1) ++ [all_released]) init).l = 5 ∧
    (chk_btn (only_pressed 4)
      (ticks (reset_then_hold 4 (n + 1) ++ [all_released]) init)).duty = -2147483641 := by
  have hd := duty_overflow n hn
  have ht : ticks (reset_then_hold 4 (n + 1) ++ [all_released]) init =
      chk_btn all_released (ticks (reset_then_hold 4 (n + 1)) init) := by
    rw [ticks_append]; rfl
  obtain ⟨_, r2, r3, _⟩ :=
    chk_btn_on_release all_released (ticks (reset_then_hold 4 (n + 1)) init)
      honoured_only_pressed.2.2.2.2.2
  obtain ⟨u1, _, _, _⟩ :=
    chk_btn_on_duty_up (only_pressed 4)
      (chk_btn all_released (ticks (reset_then_hold 4 (n + 1)) init))
      honoured_only_pressed.2.2.2.1
  rw [ht]
  refine ⟨r2, ?_⟩
  rw [u1, r2, r3, hd]
  decide

/-! # The claims -/

/-- C1 (as amended). Bounds invariant of `chk_btn`: from the startup state, for
every sequence of at most 429495910 button snapshots, after every tick `duty`
lies in `[5, 4095]` and `ms` lies in `[15, 4000]`. -/
theorem ticks_within_bounds (gs : List Nat) (hlen : gs.length ≤ 429495910) (k : Nat) :
    5 ≤ (ticks (gs.take k) init).duty ∧ (ticks (gs.take k) init).duty ≤ 4095 ∧
    15 ≤ (ticks (gs.take k) init).ms ∧ (ticks (gs.take k) init).ms ≤ 4000 := by
  have hk : (gs.take k).length ≤ 429495910 := by
    rw [List.length_take]; omega
  have hd := ticks_dutyBounded (gs.take k) 0 init init_accBounded init_dutyBounded (by omega)
  have ha := ticks_accBounded (gs.take k) 0 init init_accBounded (by omega)
  exact ⟨hd.1, hd.2, ha.1, ha.2.1⟩

/-- Witness for C1: reset, then duty-down held for two ticks. -/
theorem ticks_within_bounds_witness :
    5 ≤ (ticks ((reset_then_hold 1 2).take 3) init).duty ∧
    (ticks ((reset_then_hold 1 2).take 3) init).duty ≤ 4095 ∧
    15 ≤ (ticks ((reset_then_hold 1 2).take 3) init).ms ∧
    (ticks ((reset_then_hold 1 2).take 3) init).ms ≤ 4000 :=
  ticks_within_bounds (reset_then_hold 1 2) (by decide) 3

/-- C1 as stated fails: on the 429495911 snapshots of a press of reset followed
by 429495910 ticks with duty-up held, the last sum `duty + l` leaves the range
of `int` and `duty` ends negative, below the floor 5. -/
theorem long_duty_hold_leaves_bounds :
    (reset_then_hold 4 429495910).length = 429495911 ∧
    (ticks (reset_then_hold 4 429495910) init).duty = -2147483646 ∧
    ¬ (5 ≤ (ticks (reset_then_hold 4 429495910) init).duty) :=
  ⟨length_reset_then_hold 4 429495910, duty_overflow 429495909 rfl,
    not_le_of_eq_neg (duty_overflow 429495909 rfl)⟩

/-- C2. Step-index transition of the loop of `main`: for every index `J` in
`[0, 20)` and every direction mode `K`, one iteration completes and leaves the
index at `(J + 1) mod 20` when `K = 0`, at `(J - 1 + 20) mod 20` when `K = 1`,
and at `J` for any other `K`. -/
theorem loop_body_index (rxA rxB : Nat) (s : State) (h0 : 0 ≤ s.J) (h20 : s.J < 20) :
    ∃ s1 out, loop_body rxA rxB s = some (s1, out) ∧
      (s.K = 0 → s1.J = (s.J + 1) % 20) ∧
      (s.K = 1 → s1.J = (s.J - 1 + 20) % 20) ∧
      (s.K ≠ 0 → s.K ≠ 1 → s1.J = s.J) := by
  obtain ⟨out, hout⟩ := loop_body_some rxA rxB s h0 h20
  refine ⟨_, out, hout, ?_, ?_, ?_⟩
  · intro k; simp only [k]; exact advance_forward s.J h0 h20
  · intro k; simp only [k]; exact advance_reverse s.J h0 h20
  · intro k0 k1; exact advance_stopped s.K s.J k0 k1

/-- Witness for C2: the first iteration after startup moves the index from 0 to 1. -/
theorem loop_body_index_witness :
    (0 : Int) ≤ init.J ∧ init.J < 20 ∧
    ∃ s1 out, loop_body 0 0 init = some (s1, out) ∧
      (init.K = 0 → s1.J = (init.J + 1) % 20) ∧
      (init.K = 1 → s1.J = (init.J - 1 + 20) % 20) ∧
      (init.K ≠ 0 → init.K ≠ 1 → s1.J = init.J) :=
  ⟨by decide, by decide, loop_body_index 0 0 init (by decide) (by decide)⟩

/-- C3. Port byte composition in `set_mcp_pwm`: for every row `n` in `[0, 20)`
and every `duty`, bit `i` of the low byte `a` is set exactly when some phase
with pin `i < 8` has state `+1`, bit `i` of the high byte `b` is set exactly when
some phase with pin `i + 8` has state `+1`, both bytes are below 256, and they
are the same for every `duty`; row 0 gives `a = 0x80`, `b = 0x01`. -/
theorem port_bytes (n : Int) (h0 : 0 ≤ n) (h20 : n < 20) (duty : Int) :
    ∃ row, ptn_row n = some row ∧
      (∀ i, i < 8 → ((phase_loop duty row).a.testBit i = true ↔
        ∃ q, q < 5 ∧ (ph_pin.getD q 0 < 8 ∧ ph_pin.getD q 0 = i ∧ row.getD q 0 = 1))) ∧
      (∀ i, i < 8 → ((phase_loop duty row).b.testBit i = true ↔
        ∃ q, q < 5 ∧ (8 ≤ ph_pin.getD q 0 ∧ ph_pin.getD q 0 - 8 = i ∧ row.getD q 0 = 1))) ∧
      (phase_loop duty row).a < 256 ∧ (phase_loop duty row).b < 256 ∧
      (∀ duty1, (phase_loop duty1 row).a = (phase_loop duty row).a ∧
        (phase_loop duty1 row).b = (phase_loop duty row).b) ∧
      (n = 0 → (phase_loop duty row).a = 0x80 ∧ (phase_loop duty row).b = 0x01) := by
  have key : ∀ row, (∀ duty1, (phase_loop duty1 row).a = (phase_loop duty row).a ∧
      (phase_loop duty1 row).b = (phase_loop duty row).b) := by
    intro row duty1
    obtain ⟨_, _, e1, e2⟩ := phase_loop_spec duty row
    obtain ⟨_, _, f1, f2⟩ := phase_loop_spec duty1 row
    exact ⟨by rw [e1, f1], by rw [e2, f2]⟩
  have ea : ∀ row, (phase_loop duty row).a = (phase_loop 0 row).a :=
    fun row => (phase_loop_spec duty row).2.2.1
  have eb : ∀ row, (phase_loop duty row).b = (phase_loop 0 row).b :=
    fun row => (phase_loop_spec duty row).2.2.2
  interval_cases n <;>
    refine ⟨_, rfl, ?_, ?_, ?_, ?_, key _, ?_⟩ <;>
    simp only [ea, eb] <;>
    decide

/-- Witness for C3: row 0 at mid-scale duty. -/
theorem port_bytes_witness :
    ∃ row, ptn_row 0 = some row ∧
      (phase_loop 2047 row).a = 0x80 ∧ (phase_loop 2047 row).b = 0x01 := by
  obtain ⟨row, h, _, _, _, _, _, h0⟩ := port_bytes 0 (by decide) (by decide) 2047
  exact ⟨row, h, h0 rfl⟩

/-- C4. Reset action of `chk_btn`: from any state whose direction mode `K` is
0 (Forward), 1 (Reverse) or 2 (Stopped), a tick on which reset is the honoured
action leaves `ms = msdef = 250`, `duty = wrap / 2 = 2047` (half of 4095 in
integer division) and moves `K` one step along 0 -> 1 -> 2 -> 0. -/
theorem chk_btn_reset_action (g : Nat) (s : State) (h : honoured g = some 3)
    (hK : s.K = 0 ∨ s.K = 1 ∨ s.K = 2) :
    (chk_btn g s).ms = msdef ∧ (chk_btn g s).ms = 250 ∧
    (chk_btn g s).duty = wrap / 2 ∧ (chk_btn g s).duty = 2047 ∧
    (chk_btn g s).K = (s.K + 1) % 3 ∧
    (s.K = 0 → (chk_btn g s).K = 1) ∧ (s.K = 1 → (chk_btn g s).K = 2) ∧
    (s.K = 2 → (chk_btn g s).K = 0) := by
  obtain ⟨e1, _, e2, e3⟩ := chk_btn_on_reset g s h
  rw [e1, e2, e3]
  refine ⟨rfl, rfl, rfl, by decide, ?_, ?_, ?_, ?_⟩
  · rcases hK with k | k | k <;> rw [k] <;> decide
  · intro k; rw [k]; decide
  · intro k; rw [k]; decide
  · intro k; rw [k]; decide

/-- Witness for C4: reset pressed alone in the startup state. -/
theorem chk_btn_reset_action_witness :
    honoured (only_pressed 3) = some 3 ∧ (init.K = 0 ∨ init.K = 1 ∨ init.K = 2) ∧
    (chk_btn (only_pressed 3) init).ms = 250 ∧
    (chk_btn (only_pressed 3) init).duty = 2047 ∧
    (chk_btn (only_pressed 3) init).K = (init.K + 1) % 3 :=
  have h := chk_btn_reset_action (only_pressed 3) init (by decide) (Or.inl rfl)
  ⟨by decide, Or.inl rfl, h.2.1, h.2.2.2.1, h.2.2.2.2.1⟩

/-- C5. First-match-wins priority in `chk_btn`: on every state and snapshot, if
`q` is the first active input in the order 0, 2, 3, 4, 1, the tick has on
`(ms, duty, K)` the effect of the action of `q` alone, whatever other inputs
are active: period-up (0) adds `l` to `ms` and caps it at `msmax`, period-down
(2) subtracts `l` from `ms` with floor `msmin`, reset (3) sets `ms = msdef`,
`duty = wrap / 2` and cycles `K`, duty-up (4) adds `l` to `duty` and caps it at
`wrap`, duty-down (1) subtracts `l` from `duty` with floor 5; a period action
leaves `duty` and `K` unchanged and a duty action leaves `ms` and `K`
unchanged; and the result is that of the tick on which `q` alone is active. -/
theorem chk_btn_first_match (g : Nat) (s : State) (q : Nat) (h : honoured g = some q) :
    (q = 0 ∨ q = 2 ∨ q = 3 ∨ q = 4 ∨ q = 1) ∧
    (q = 0 →
      (chk_btn g s).ms =
        (if toInt32 (s.ms + s.l) > msmax then msmax else toInt32 (s.ms + s.l)) ∧
      (chk_btn g s).duty = s.duty ∧ (chk_btn g s).K = s.K) ∧
    (q = 2 →
      (chk_btn g s).ms =
        (if toInt32 (s.ms - s.l) < msmin then msmin else toInt32 (s.ms - s.l)) ∧
      (chk_btn g s).duty = s.duty ∧ (chk_btn g s).K = s.K) ∧
    (q = 3 →
      (chk_btn g s).ms = msdef ∧ (chk_btn g s).duty = wrap / 2 ∧
      (chk_btn g s).K = (if s.K = 0 then 1 else if s.K = 1 then 2 else 0)) ∧
    (q = 4 →
      (chk_btn g s).duty =
        (if toInt32 (s.duty + s.l) ≥ wrap then wrap else toInt32 (s.duty + s.l)) ∧
      (chk_btn g s).ms = s.ms ∧ (chk_btn g s).K = s.K) ∧
    (q = 1 →
      (chk_btn g s).duty =
        (if toInt32 (s.duty - s.l) < 5 then 5 else toInt32 (s.duty - s.l)) ∧
      (chk_btn g s).ms = s.ms ∧ (chk_btn g s).K = s.K) ∧
    ((chk_btn g s).ms = (chk_btn (only_pressed q) s).ms ∧
     (chk_btn g s).duty = (chk_btn (only_pressed q) s).duty ∧
     (chk_btn g s).K = (chk_btn (only_pressed q) s).K ∧
     (chk_btn g s).l = (chk_btn (only_pressed q) s).l) := by
  rcases honoured_cases g with c | c | c | c | c | c <;> rw [c] at h
  · obtain rfl : 0 = q := by simpa using h
    obtain ⟨a1, a2, a3, a4⟩ := chk_btn_on_period_up g s c
    obtain ⟨b1, b2, b3, b4⟩ := chk_btn_on_period_up (only_pressed 0) s honoured_only_pressed.1
    exact ⟨by decide, fun _ => ⟨a1, a3, a4⟩, fun k => by omega, fun k => by omega,
      fun k => by omega, fun k => by omega,
      by rw [a1, b1], by rw [a3, b3], by rw [a4, b4], by rw [a2, b2]⟩
  · obtain rfl : 2 = q := by simpa using h
    obtain ⟨a1, a2, a3, a4⟩ := chk_btn_on_period_down g s c
    obtain ⟨b1, b2, b3, b4⟩ := chk_btn_on_period_down (only_pressed 2) s honoured_only_pressed.2.1
    exact ⟨by decide, fun k => by omega, fun _ => ⟨a1, a3, a4⟩, fun k => by omega,
      fun k => by omega, fun k => by omega,
      by rw [a1, b1], by rw [a3, b3], by rw [a4, b4], by rw [a2, b2]⟩
  · obtain rfl : 3 = q := by simpa using h
    obtain ⟨a1, a2, a3, a4⟩ := chk_btn_on_reset g s c
    obtain ⟨b1, b2, b3, b4⟩ := chk_btn_on_reset (only_pressed 3) s honoured_only_pressed.2.2.1
    exact ⟨by decide, fun k => by omega, fun k => by omega, fun _ => ⟨a1, a3, a4⟩,
      fun k => by omega, fun k => by omega,
      by rw [a1, b1], by rw [a3, b3], by rw [a4, b4], by rw [a2, b2]⟩
  · obtain rfl : 4 = q := by simpa using h
    obtain ⟨a1, a2, a3, a4⟩ := chk_btn_on_duty_up g s c
    obtain ⟨b1, b2, b3, b4⟩ := chk_btn_on_duty_up (only_pressed 4) s honoured_only_pressed.2.2.2.1
    exact ⟨by decide, fun k => by omega, fun k => by omega, fun k => by omega,
      fun _ => ⟨a1, a3, a4⟩, fun k => by omega,
      by rw [a3, b3], by rw [a1, b1], by rw [a4, b4], by rw [a2, b2]⟩
  · obtain rfl : 1 = q := by simpa using h
    obtain ⟨a1, a2, a3, a4⟩ := chk_btn_on_duty_down g s c
    obtain ⟨b1, b2, b3, b4⟩ :=
      chk_btn_on_duty_down (only_pressed 1) s honoured_only_pressed.2.2.2.2.1
    exact ⟨by decide, fun k => by omega, fun k => by omega, fun k => by omega,
      fun k => by omega, fun _ => ⟨a1, a3, a4⟩,
      by rw [a3, b3], by rw [a1, b1], by rw [a4, b4], by rw [a2, b2]⟩
  · exact absurd h (by simp)

/-- Witness for C5: from `ms = 250`, `duty = 2047`, `K = 0`, `l = 10`, with all
five inputs active the tick is period-up (`ms = 260`, `duty` and `K` kept);
with inputs 2, 3, 4, 1 active it is period-down (`ms = 240`); with 3, 4, 1
active it is reset (`K = 1`); with 4, 1 active it is duty-up (`duty = 2057`);
with 1 alone it is duty-down (`duty = 2037`). -/
theorem chk_btn_first_match_witness :
    (honoured 0 = some 0 ∧
      (chk_btn 0 (with_duty_acc 2047 10)).ms = 260 ∧
      (chk_btn 0 (with_duty_acc 2047 10)).duty = 2047 ∧
      (chk_btn 0 (with_duty_acc 2047 10)).K = 0) ∧
    (honoured 2097152 = some 2 ∧
      (chk_btn 2097152 (with_duty_acc 2047 10)).ms = 240 ∧
      (chk_btn 2097152 (with_duty_acc 2047 10)).duty = 2047) ∧
    (honoured 69206016 = some 3 ∧
      (chk_btn 69206016 (with_duty_acc 2047 10)).ms = 250 ∧
      (chk_btn 69206016 (with_duty_acc 2047 10)).K = 1) ∧
    (honoured 203423744 = some 4 ∧
      (chk_btn 203423744 (with_duty_acc 2047 10)).duty = 2057 ∧
      (chk_btn 203423744 (with_duty_acc 2047 10)).ms = 250) ∧
    (honoured (only_pressed 1) = some 1 ∧
      (chk_btn (only_pressed 1) (with_duty_acc 2047 10)).duty = 2037 ∧
      (chk_btn (only_pressed 1) (with_duty_acc 2047 10)).ms = 250) :=
  have h0 := (chk_btn_first_match 0 (with_duty_acc 2047 10) 0 (by decide)).2.1 rfl
  have h2 := (chk_btn_first_match 2097152 (with_duty_acc 2047 10) 2 (by decide)).2.2.1 rfl
  have h3 := (chk_btn_first_match 69206016 (with_duty_acc 2047 10) 3 (by decide)).2.2.2.1 rfl
  have h4 :=
    (chk_btn_first_match 203423744 (with_duty_acc 2047 10) 4 (by decide)).2.2.2.2.1 rfl
  have h1 :=
    (chk_btn_first_match (only_pressed 1) (with_duty_acc 2047 10) 1
      (by decide)).2.2.2.2.2.1 rfl
  ⟨⟨by decide, h0.1.trans (by decide), h0.2.1.trans (by decide), h0.2.2.trans (by decide)⟩,
    ⟨by decide, h2.1.trans (by decide), h2.2.1.trans (by decide)⟩,
    ⟨by decide, h3.1.trans (by decide), h3.2.2.trans (by decide)⟩,
    ⟨by decide, h4.1.trans (by decide), h4.2.1.trans (by decide)⟩,
    ⟨by decide, h1.1.trans (by decide), h1.2.1.trans (by decide)⟩⟩

/-- C6. Wire frames of `set_mcp_pwm`: for every row `n` in `[0, 20)` one call
completes and issues exactly four 3-byte bus transactions, in this order: write
`[0x40, 0x12, a]`, write `[0x40, 0x13, b]`, read `[0x41, 0x12, 0x00]`, read
`[0x41, 0x13, 0x00]`, with `a`, `b` the port bytes composed from row `n`. -/
theorem set_mcp_pwm_frames (n : Int) (h0 : 0 ≤ n) (h20 : n < 20) (duty : Int)
    (rxA rxB : Nat) :
    ∃ row out, ptn_row n = some row ∧ set_mcp_pwm duty n rxA rxB = some out ∧
      bus_frames out =
        [(false, [0x40, 0x12, (phase_loop duty row).a]),
         (false, [0x40, 0x13, (phase_loop duty row).b]),
         (true, [0x41, 0x12, 0x00]),
         (true, [0x41, 0x13, 0x00])] := by
  obtain ⟨row, hrow, _⟩ := ptn_row_some n h0 h20
  obtain ⟨out, hout, _, hb⟩ := set_mcp_pwm_row duty n rxA rxB row hrow
  exact ⟨row, out, hrow, hout, hb⟩

/-- Witness for C6: row 0 at mid-scale duty, with read-back bytes `0x80`, `0x01`. -/
theorem set_mcp_pwm_frames_witness :
    ∃ row out, ptn_row 0 = some row ∧ set_mcp_pwm 2047 0 0x80 0x01 = some out ∧
      bus_frames out =
        [(false, [0x40, 0x12, (phase_loop 2047 row).a]),
         (false, [0x40, 0x13, (phase_loop 2047 row).b]),
         (true, [0x41, 0x12, 0x00]),
         (true, [0x41, 0x13, 0x00])] :=
  set_mcp_pwm_frames 0 (by decide) (by decide) 2047 0x80 0x01

/-- C7 (as amended). PWM level mapping in `set_mcp_pwm`: for every row `n` in
`[0, 20)` and every `duty`, one call completes and programs exactly five PWM
levels, the `q`-th on slice `ph_pin[q] / 2`, channel `ph_pin[q] % 2`; the five
(slice, channel) pairs are distinct; the level is 0 when the phase state is 0
and is `duty` converted to `uint16_t` (`duty` modulo 65536) when the state is
`+1` or `-1`, which is `duty` itself whenever `0 ≤ duty ≤ 65535`. -/
theorem set_mcp_pwm_levels (n : Int) (h0 : 0 ≤ n) (h20 : n < 20) (duty : Int)
    (rxA rxB : Nat) :
    ∃ row out, ptn_row n = some row ∧ set_mcp_pwm duty n rxA rxB = some out ∧
      (pwm_levels out).length = 5 ∧
      (∀ q, q < 5 → ∃ v,
        (pwm_levels out).get? q = some (ph_pin.getD q 0 / 2, ph_pin.getD q 0 % 2, v) ∧
        (row.getD q 0 = 0 → v = 0) ∧
        (row.getD q 0 = 1 ∨ row.getD q 0 = -1 →
          v = duty % 65536 ∧ (0 ≤ duty → duty ≤ 65535 → v = duty))) ∧
      ((pwm_levels out).map (fun t => (t.1, t.2.1))).Nodup := by
  obtain ⟨row, hrow, _⟩ := ptn_row_some n h0 h20
  obtain ⟨out, hout, hp, _⟩ := set_mcp_pwm_row duty n rxA rxB row hrow
  refine ⟨row, out, hrow, hout, ?_, ?_, ?_⟩
  · rw [hp]; simp
  · intro q hq
    refine ⟨if row.getD q 0 = 0 then 0 else toUInt16 duty, ?_, ?_, ?_⟩
    · rw [hp, List.get?_eq_getElem?, List.getElem?_map, List.getElem?_range hq]; rfl
    · intro h; rw [if_pos h]
    · intro h
      have hne : row.getD q 0 ≠ 0 := by rcases h with h | h <;> rw [h] <;> decide
      rw [if_neg hne]
      refine ⟨rfl, ?_⟩
      intro d0 d1
      unfold toUInt16
      omega
  · rw [hp, List.map_map]
    show ([(2, 1), (3, 0), (3, 1), (4, 0), (4, 1)] : List (Nat × Nat)).Nodup
    decide

/-- Witness for C7: row 0 at mid-scale duty; the first phase has state `-1` and
gets level 2047. -/
theorem set_mcp_pwm_levels_witness :
    (0 : Int) ≤ 0 ∧ (0 : Int) < 20 ∧
    ∃ row out, ptn_row 0 = some row ∧ set_mcp_pwm 2047 0 0x80 0x01 = some out ∧
      (pwm_levels out).length = 5 ∧ row.getD 0 0 = -1 ∧
      (pwm_levels out).get? 0 = some (2, 1, 2047) := by
  obtain ⟨row, out, hr, h, hl, hq, _⟩ :=
    set_mcp_pwm_levels 0 (by decide) (by decide) 2047 0x80 0x01
  have hrow : row = [-1, 0, 1, 1, 0] := by
    have h0 : ptn_row 0 = some [-1, 0, 1, 1, 0] := rfl
    rw [h0] at hr
    exact (Option.some.inj hr).symm
  obtain ⟨v, hv, _, hd⟩ := hq 0 (by decide)
  have hs : row.getD 0 0 = -1 := by rw [hrow]; rfl
  have hv2 : v = 2047 := (hd (Or.inr hs)).2 (by decide) (by decide)
  rw [hv2] at hv
  exact ⟨by decide, by decide, row, out, hr, h, hl, hs, hv⟩

/-- C7 as stated fails for `duty` outside `[0, 65535]`: on row 0 with
`duty = -95` the three driven phases get level 65441, and with
`duty = -2147483646` (the value after the long duty-up hold) they get level 2. -/
theorem negative_duty_level_converted :
    (set_mcp_pwm (-95) 0 0 0).map pwm_levels =
      some [(2, 1, 65441), (3, 0, 0), (3, 1, 65441), (4, 0, 65441), (4, 1, 0)] ∧
    (set_mcp_pwm (-2147483646) 0 0 0).map pwm_levels =
      some [(2, 1, 2), (3, 0, 0), (3, 1, 2), (4, 0, 2), (4, 1, 0)] := by
  decide

/-- C8. The step index stays valid: `set_mcp_pwm` has no row to read exactly
when its index is outside `[0, 20)`, and from index 0, whatever values of `ms`,
`duty`, `K` (any integer) and read-back bytes the iterations meet, every run of
the loop of `main` completes each call and reaches an index in `[0, 20)`, at
which `ptn` has a row of 5 entries. -/
theorem main_loop_index_valid :
    (∀ (duty n : Int) (rxA rxB : Nat),
      set_mcp_pwm duty n rxA rxB = none ↔ (n < 0 ∨ 20 ≤ n)) ∧
    (∀ obs : List Obs, ∃ s1 out, main_loop obs init = some (s1, out) ∧
      0 ≤ s1.J ∧ s1.J < 20 ∧ ∃ row, ptn_row s1.J = some row ∧ row.length = 5) := by
  constructor
  · intro duty n rxA rxB
    constructor
    · intro h
      by_contra hn
      obtain ⟨row, hrow, _⟩ := ptn_row_some n (by omega) (by omega)
      obtain ⟨out, hout, _, _⟩ := set_mcp_pwm_row duty n rxA rxB row hrow
      rw [h] at hout
      exact absurd hout (by simp)
    · intro h
      simp only [set_mcp_pwm, ptn_row_none n h]
  · intro obs
    obtain ⟨s1, out, h, b0, b20⟩ := main_loop_some obs init (by decide) (by decide)
    exact ⟨s1, out, h, b0, b20, ptn_row_some s1.J b0 b20⟩

/-- C9. Cyclic structure of the step index: from every index `i` in `[0, 20)`,
20 Forward advances return to `i` and no `k` with `0 < k < 20` does; one
Reverse advance undoes one Forward advance and conversely, `k` Forward advances
undo `k` Reverse advances and conversely, and 20 Reverse advances return to
`i`; under any mode other than 0 and 1 the index is unchanged after any number
of advances. -/
theorem advance_cycle (i : Int) (h0 : 0 ≤ i) (h20 : i < 20) :
    (advance 0)^[20] i = i ∧
    (∀ k, 0 < k → k < 20 → (advance 0)^[k] i ≠ i) ∧
    advance 1 (advance 0 i) = i ∧ advance 0 (advance 1 i) = i ∧
    (∀ k, (advance 0)^[k] ((advance 1)^[k] i) = i) ∧
    (∀ k, (advance 1)^[k] ((advance 0)^[k] i) = i) ∧
    (advance 1)^[20] i = i ∧
    (∀ (K : Int) (k : Nat), K ≠ 0 → K ≠ 1 → (advance K)^[k] i = i) := by
  refine ⟨?_, ?_, ?_, ?_, ?_, ?_, ?_, ?_⟩
  · rw [iterate_forward i h0 h20]; push_cast; omega
  · intro k hk0 hk20
    rw [iterate_forward i h0 h20]; omega
  · rw [advance_forward i h0 h20, advance_reverse _ (by omega) (by omega)]; omega
  · rw [advance_reverse i h0 h20, advance_forward _ (by omega) (by omega)]; omega
  · intro k
    rw [iterate_reverse i h0 h20, iterate_forward _ (by omega) (by omega)]; omega
  · intro k
    rw [iterate_forward i h0 h20, iterate_reverse _ (by omega) (by omega)]; omega
  · rw [iterate_reverse i h0 h20]; push_cast; omega
  · intro K k hK0 hK1
    exact Function.iterate_fixed (advance_stopped K i hK0 hK1) k

/-- Witness for C9: the cycle through index 7. -/
theorem advance_cycle_witness :
    (0 : Int) ≤ 7 ∧ (7 : Int) < 20 ∧ (advance 0)^[20] 7 = 7 ∧
    advance 1 (advance 0 7) = 7 ∧ (advance 2)^[5] 7 = 7 :=
  have h := advance_cycle 7 (by decide) (by decide)
  ⟨by decide, by decide, h.1, h.2.2.1, h.2.2.2.2.2.2.2 2 5 (by decide) (by decide)⟩

/-- C10 (as amended). Period adjustment in `chk_btn`: for every state reachable
from startup in at most 429495928 ticks, a tick whose honoured action is
period-up sets `ms` to `clamp (ms + l) 15 4000`, a tick whose honoured action is
period-down sets `ms` to `clamp (ms - l) 15 4000`, and in both cases the
accumulator afterwards is `l + 5`. -/
theorem chk_btn_period_adjust (n : Nat) (hn : n ≤ 429495928) (s : State)
    (hs : ReachableIn n s) (g : Nat) :
    (honoured g = some 0 →
      (chk_btn g s).ms = clamp (s.ms + s.l) msmin msmax ∧ (chk_btn g s).l = s.l + 5) ∧
    (honoured g = some 2 →
      (chk_btn g s).ms = clamp (s.ms - s.l) msmin msmax ∧ (chk_btn g s).l = s.l + 5) := by
  obtain ⟨gs, hlen, rfl⟩ := hs
  have hb := ticks_accBounded gs 0 init init_accBounded (by omega)
  rw [hlen, Nat.zero_add] at hb
  obtain ⟨h1, h2, h3, h4⟩ := hb
  have hn' : (n : Int) ≤ 429495928 := by exact_mod_cast hn
  have w5 := toInt32_of_range ((ticks gs init).l + 5) (by omega) (by omega)
  constructor
  · intro c
    obtain ⟨e1, e2, _, _⟩ := chk_btn_on_period_up g (ticks gs init) c
    have w := toInt32_of_range ((ticks gs init).ms + (ticks gs init).l) (by omega) (by omega)
    rw [e1, e2, w, w5]
    refine ⟨?_, rfl⟩
    simp only [clamp, msmin, msmax]
    split_ifs <;> omega
  · intro c
    obtain ⟨e1, e2, _, _⟩ := chk_btn_on_period_down g (ticks gs init) c
    have w := toInt32_of_range ((ticks gs init).ms - (ticks gs init).l) (by omega) (by omega)
    rw [e1, e2, w, w5]
    refine ⟨?_, rfl⟩
    simp only [clamp, msmin, msmax]
    split_ifs <;> omega

/-- Witness for C10: period-up held for a second tick after startup. -/
theorem chk_btn_period_adjust_witness :
    ReachableIn 1 (ticks [only_pressed 0] init) ∧ honoured (only_pressed 0) = some 0 ∧
    (chk_btn (only_pressed 0) (ticks [only_pressed 0] init)).ms =
      clamp ((ticks [only_pressed 0] init).ms + (ticks [only_pressed 0] init).l) msmin msmax ∧
    (chk_btn (only_pressed 0) (ticks [only_pressed 0] init)).l =
      (ticks [only_pressed 0] init).l + 5 :=
  ⟨⟨[only_pressed 0], rfl, rfl⟩, by decide,
    (chk_btn_period_adjust 1 (by decide) (ticks [only_pressed 0] init)
      ⟨[only_pressed 0], rfl, rfl⟩ (only_pressed 0)).1 (by decide)⟩

/-- C10 as stated fails: the state after a press of reset and 429495928 ticks
with period-up held is reachable from startup, and there the sum `ms + l`
leaves the range of `int`: period-up leaves `ms` negative where the clamp of
`ms + l` is 4000. -/
theorem long_period_hold_defeats_clamp :
    ReachableIn 429495929 (ticks (reset_then_hold 0 429495928) init) ∧
    honoured (only_pressed 0) = some 0 ∧
    (chk_btn (only_pressed 0) (ticks (reset_then_hold 0 429495928) init)).ms = -2147483646 ∧
    clamp ((ticks (reset_then_hold 0 429495928) init).ms +
      (ticks (reset_then_hold 0 429495928) init).l) msmin msmax = 4000 :=
  ⟨⟨reset_then_hold 0 429495928, length_reset_then_hold 0 429495928, rfl⟩,
    honoured_only_pressed.1, period_overflow 429495928 rfl⟩

/-- C11 (as amended). Hold-to-accelerate in `chk_btn`: from every state with
accumulator 5 and `duty` in `[5, 4095]`, three consecutive ticks honouring the
same duty button `q` (4 = duty-up, 1 = duty-down) start with accumulator 5, 10,
15 in turn and set `duty` to the clamp into `[5, 4095]` of the previous `duty`
plus (for duty-up) or minus (for duty-down) 5, then 10, then 15. -/
theorem chk_btn_hold_duty (s : State) (g1 g2 g3 q : Nat) (hl : s.l = 5)
    (hd1 : 5 ≤ s.duty) (hd2 : s.duty ≤ 4095)
    (h1 : honoured g1 = some q) (h2 : honoured g2 = some q) (h3 : honoured g3 = some q) :
    (q = 4 →
      (chk_btn g1 s).l = 10 ∧ (chk_btn g2 (chk_btn g1 s)).l = 15 ∧
      (chk_btn g1 s).duty = clamp (s.duty + 5) 5 4095 ∧
      (chk_btn g2 (chk_btn g1 s)).duty = clamp ((chk_btn g1 s).duty + 10) 5 4095 ∧
      (chk_btn g3 (chk_btn g2 (chk_btn g1 s))).duty =
        clamp ((chk_btn g2 (chk_btn g1 s)).duty + 15) 5 4095) ∧
    (q = 1 →
      (chk_btn g1 s).l = 10 ∧ (chk_btn g2 (chk_btn g1 s)).l = 15 ∧
      (chk_btn g1 s).duty = clamp (s.duty - 5) 5 4095 ∧
      (chk_btn g2 (chk_btn g1 s)).duty = clamp ((chk_btn g1 s).duty - 10) 5 4095 ∧
      (chk_btn g3 (chk_btn g2 (chk_btn g1 s))).duty =
        clamp ((chk_btn g2 (chk_btn g1 s)).duty - 15) 5 4095) := by
  constructor
  · intro hq
    subst hq
    obtain ⟨a1, a2, _, _⟩ := chk_btn_on_duty_up g1 s h1
    obtain ⟨b1, b2, _, _⟩ := chk_btn_on_duty_up g2 (chk_btn g1 s) h2
    obtain ⟨c1, _, _, _⟩ := chk_btn_on_duty_up g3 (chk_btn g2 (chk_btn g1 s)) h3
    have w1 := toInt32_of_range (s.duty + 5) (by omega) (by omega)
    have hl1 : (chk_btn g1 s).l = 10 := by rw [a2, hl]; decide
    have hr1 : (chk_btn g1 s).duty = clamp (s.duty + 5) 5 4095 := by
      rw [a1, hl, w1]; simp only [clamp, wrap]; split_ifs <;> omega
    have hb1 : 5 ≤ (chk_btn g1 s).duty ∧ (chk_btn g1 s).duty ≤ 4095 := by
      rw [hr1]; simp only [clamp]; split_ifs <;> omega
    have w2 := toInt32_of_range ((chk_btn g1 s).duty + 10) (by omega) (by omega)
    have hl2 : (chk_btn g2 (chk_btn g1 s)).l = 15 := by rw [b2, hl1]; decide
    have hr2 : (chk_btn g2 (chk_btn g1 s)).duty = clamp ((chk_btn g1 s).duty + 10) 5 4095 := by
      rw [b1, hl1, w2]; simp only [clamp, wrap]; split_ifs <;> omega
    have hb2 : 5 ≤ (chk_btn g2 (chk_btn g1 s)).duty ∧
        (chk_btn g2 (chk_btn g1 s)).duty ≤ 4095 := by
      rw [hr2]; simp only [clamp]; split_ifs <;> omega
    have w3 := toInt32_of_range ((chk_btn g2 (chk_btn g1 s)).duty + 15) (by omega) (by omega)
    refine ⟨hl1, hl2, hr1, hr2, ?_⟩
    rw [c1, hl2, w3]; simp only [clamp, wrap]; split_ifs <;> omega
  · intro hq
    subst hq
    obtain ⟨a1, a2, _, _⟩ := chk_btn_on_duty_down g1 s h1
    obtain ⟨b1, b2, _, _⟩ := chk_btn_on_duty_down g2 (chk_btn g1 s) h2
    obtain ⟨c1, _, _, _⟩ := chk_btn_on_duty_down g3 (chk_btn g2 (chk_btn g1 s)) h3
    have w1 := toInt32_of_range (s.duty - 5) (by omega) (by omega)
    have hl1 : (chk_btn g1 s).l = 10 := by rw [a2, hl]; decide
    have hr1 : (chk_btn g1 s).duty = clamp (s.duty - 5) 5 4095 := by
      rw [a1, hl, w1]; simp only [clamp]; split_ifs <;> omega
    have hb1 : 5 ≤ (chk_btn g1 s).duty ∧ (chk_btn g1 s).duty ≤ 4095 := by
      rw [hr1]; simp only [clamp]; split_ifs <;> omega
    have w2 := toInt32_of_range ((chk_btn g1 s).duty - 10) (by omega) (by omega)
    have hl2 : (chk_btn g2 (chk_btn g1 s)).l = 15 := by rw [b2, hl1]; decide
    have hr2 : (chk_btn g2 (chk_btn g1 s)).duty = clamp ((chk_btn g1 s).duty - 10) 5 4095 := by
      rw [b1, hl1, w2]; simp only [clamp]; split_ifs <;> omega
    have hb2 : 5 ≤ (chk_btn g2 (chk_btn g1 s)).duty ∧
        (chk_btn g2 (chk_btn g1 s)).duty ≤ 4095 := by
      rw [hr2]; simp only [clamp]; split_ifs <;> omega
    have w3 := toInt32_of_range ((chk_btn g2 (chk_btn g1 s)).duty - 15) (by omega) (by omega)
    refine ⟨hl1, hl2, hr1, hr2, ?_⟩
    rw [c1, hl2, w3]; simp only [clamp]; split_ifs <;> omega

/-- Witness for C11: duty-up held for three ticks from `duty = 4080`, `l = 5`:
4085, then 4095 twice (clamped). -/
theorem chk_btn_hold_duty_witness :
    (with_duty_acc 4080 5).l = 5 ∧ honoured (only_pressed 4) = some 4 ∧
    (chk_btn (only_pressed 4) (with_duty_acc 4080 5)).l = 10 ∧
    (chk_btn (only_pressed 4) (chk_btn (only_pressed 4) (with_duty_acc 4080 5))).l = 15 ∧
    (chk_btn (only_pressed 4) (with_duty_acc 4080 5)).duty = clamp (4080 + 5) 5 4095 :=
  have h := (chk_btn_hold_duty (with_duty_acc 4080 5) (only_pressed 4) (only_pressed 4)
    (only_pressed 4) 4 rfl (by decide) (by decide) (by decide) (by decide) (by decide)).1 rfl
  ⟨rfl, by decide, h.1, h.2.1, h.2.2.1⟩

/-- C11 as stated fails for states whose `duty` is outside `[5, 4095]`: with
accumulator 5 and `duty = -100`, duty-up gives `-95`, where the clamp of
`duty + 5` is 5; and such a state arises from startup: after the long duty-up
hold and one tick with no input, the accumulator is 5, `duty` is negative and
duty-up leaves it negative. -/
theorem hold_outside_range_not_clamped :
    (with_duty_acc (-100) 5).l = 5 ∧ honoured (only_pressed 4) = some 4 ∧
    (chk_btn (only_pressed 4) (with_duty_acc (-100) 5)).duty = -95 ∧
    clamp ((with_duty_acc (-100) 5).duty + 5) 5 4095 = 5 ∧
    (ticks (reset_then_hold 4 429495910 ++ [all_released]) init).l = 5 ∧
    (chk_btn (only_pressed 4)
      (ticks (reset_then_hold 4 429495910 ++ [all_released]) init)).duty = -2147483641 :=
  ⟨rfl, honoured_only_pressed.2.2.2.1, by decide, by decide, release_after_overflow 429495909 rfl⟩

/-- C12. Release resets the accumulator: on every state, a tick on which none
of the five inputs is active sets `l = 5` and leaves `ms`, `duty` and `K`
unchanged. -/
theorem chk_btn_release (g : Nat) (s : State) (h : ∀ q, q < 5 → active g q = false) :
    (chk_btn g s).l = 5 ∧ (chk_btn g s).ms = s.ms ∧ (chk_btn g s).duty = s.duty ∧
    (chk_btn g s).K = s.K := by
  obtain ⟨e1, e2, e3, e4⟩ := chk_btn_on_release g s (honoured_none_of_inactive g h)
  exact ⟨e2, e1, e3, e4⟩

/-- Witness for C12: all lines high on a state with accumulator 40. -/
theorem chk_btn_release_witness :
    (∀ q, q < 5 → active all_released q = false) ∧
    (chk_btn all_released (with_duty_acc 2047 40)).l = 5 ∧
    (chk_btn all_released (with_duty_acc 2047 40)).duty = (with_duty_acc 2047 40).duty :=
  have h := chk_btn_release all_released (with_duty_acc 2047 40) (by decide)
  ⟨by decide, h.1, h.2.2.1⟩

/-- C13, evaluated on the code: at startup the accumulator is 0, not 5; a first
tick with duty-up (or period-up) held leaves `duty` (or `ms`) unchanged and
only then brings the accumulator to 5. -/
theorem startup_accumulator_zero :
    init.l = 0 ∧
    (chk_btn (only_pressed 4) init).duty = init.duty ∧
    (chk_btn (only_pressed 0) init).ms = init.ms ∧
    (chk_btn (only_pressed 4) init).l = 5 := by
  decide

/-- C14. Shape of the pattern table: `ptn` has exactly 20 rows, and every row
`i` in `[0, 20)` has exactly 5 entries, each one of `-1`, `0`, `+1`. -/
theorem ptn_shape :
    ptn.length = 20 ∧
    (∀ i : Nat, i < 20 → ∃ row, ptn_row (i : Int) = some row ∧ row.length = 5 ∧
      ∀ v, v ∈ row → v = -1 ∨ v = 0 ∨ v = 1) := by
  refine ⟨rfl, ?_⟩
  intro i hi
  interval_cases i <;> exact ⟨_, rfl, rfl, by decide⟩

/-- C15. Single-transition property of `ptn`: for every `i` in `[0, 20)`, row
`i` and row `(i + 1) mod 20` differ in exactly one of the five positions, and
there one of the two values is 0 and they differ by exactly 1. -/
theorem ptn_single_transition (i : Nat) (hi : i < 20) :
    ∃ r1 r2, ptn_row (i : Int) = some r1 ∧ ptn_row (((i + 1) % 20 : Nat) : Int) = some r2 ∧
      ((List.range 5).filter (fun q => decide (r1.getD q 0 ≠ r2.getD q 0))).length = 1 ∧
      ∀ q, q < 5 → r1.getD q 0 ≠ r2.getD q 0 →
        (r1.getD q 0 = 0 ∨ r2.getD q 0 = 0) ∧
        (r1.getD q 0 - r2.getD q 0 = 1 ∨ r1.getD q 0 - r2.getD q 0 = -1) := by
  interval_cases i <;> exact ⟨_, _, rfl, rfl, by decide, by decide⟩

/-- Witness for C15: the wrap-around pair, row 19 and row 0. -/
theorem ptn_single_transition_witness :
    ∃ r1 r2, ptn_row 19 = some r1 ∧ ptn_row 0 = some r2 ∧
      ((List.range 5).filter (fun q => decide (r1.getD q 0 ≠ r2.getD q 0))).length = 1 := by
  obtain ⟨r1, r2, h1, h2, h3, _⟩ := ptn_single_transition 19 (by decide)
  exact ⟨r1, r2, h1, h2, h3⟩

/-- C16. Read-back mismatch is not fatal: for every index in `[0, 20)` and any
two pairs of bytes returned by the read transactions (in particular a pair that
differs from the written bytes and the pair that matches them), the iteration
completes in both cases with the same resulting state (control scalars and next
step index) and the same PWM levels, bus frames and hardware calls; only the
diagnostic output can differ. -/
theorem readback_not_fatal (s : State) (h0 : 0 ≤ s.J) (h20 : s.J < 20)
    (rxA rxB rxA1 rxB1 : Nat) :
    ∃ s1 out out1, loop_body rxA rxB s = some (s1, out) ∧
      loop_body rxA1 rxB1 s = some (s1, out1) ∧
      pwm_levels out = pwm_levels out1 ∧ bus_frames out = bus_frames out1 ∧
      hardware_calls out = hardware_calls out1 := by
  obtain ⟨row, hrow, _⟩ := ptn_row_some s.J h0 h20
  obtain ⟨o, ho, hp, hb⟩ := set_mcp_pwm_row s.duty s.J rxA rxB row hrow
  obtain ⟨o1, ho1, hp1, hb1⟩ := set_mcp_pwm_row s.duty s.J rxA1 rxB1 row hrow
  obtain ⟨o2, ho2, hh⟩ := set_mcp_pwm_hardware s.duty s.J rxA rxB row hrow
  obtain ⟨o3, ho3, hh1⟩ := set_mcp_pwm_hardware s.duty s.J rxA1 rxB1 row hrow
  have e2 : o2 = o := Option.some.inj (ho2.symm.trans ho)
  have e3 : o3 = o1 := Option.some.inj (ho3.symm.trans ho1)
  subst e2 e3
  refine ⟨{ s with J := advance s.K s.J, L := !s.L },
    o2 ++ [Out.gpio_put PICO_DEFAULT_LED_PIN (!s.L), Out.sleep_ms (toUInt32 s.ms)],
    o3 ++ [Out.gpio_put PICO_DEFAULT_LED_PIN (!s.L), Out.sleep_ms (toUInt32 s.ms)], ?_, ?_, ?_, ?_, ?_⟩
  · simp only [loop_body, ho]
  · simp only [loop_body, ho1]
  · rw [pwm_levels_append, pwm_levels_append, hp, hp1]
  · rw [bus_frames_append, bus_frames_append, hb, hb1]
  · simp only [hardware_calls, List.filter_append] at hh hh1 ⊢
    rw [hh, hh1]

/-- Witness for C16: row 0, read-back `0x00, 0x00` against the matching `0x80, 0x01`. -/
theorem readback_not_fatal_witness :
    ∃ s1 out out1, loop_body 0x00 0x00 init = some (s1, out) ∧
      loop_body 0x80 0x01 init = some (s1, out1) ∧
      pwm_levels out = pwm_levels out1 ∧ bus_frames out = bus_frames out1 ∧
      hardware_calls out = hardware_calls out1 :=
  readback_not_fatal init (by decide) (by decide) 0x00 0x00 0x80 0x01

/-- C17. Ownership of the shared state: one iteration of the loop of `main`
(on an index in `[0, 20)`) completes and leaves `duty`, `ms`, `K` and `l`
unchanged, and one run of `chk_btn` leaves the step index `J` unchanged. -/
theorem shared_state_ownership (rxA rxB g : Nat) (s : State) (h0 : 0 ≤ s.J)
    (h20 : s.J < 20) :
    (∃ s1 out, loop_body rxA rxB s = some (s1, out) ∧
      s1.duty = s.duty ∧ s1.ms = s.ms ∧ s1.K = s.K ∧ s1.l = s.l) ∧
    (chk_btn g s).J = s.J := by
  obtain ⟨out, hout⟩ := loop_body_some rxA rxB s h0 h20
  exact ⟨⟨_, out, hout, rfl, rfl, rfl, rfl⟩, (chk_btn_J g s).1⟩

/-- Witness for C17: the first iteration and a tick with reset pressed, at startup. -/
theorem shared_state_ownership_witness :
    (∃ s1 out, loop_body 0 0 init = some (s1, out) ∧
      s1.duty = init.duty ∧ s1.ms = init.ms ∧ s1.K = init.K ∧ s1.l = init.l) ∧
    (chk_btn (only_pressed 3) init).J = init.J :=
  shared_state_ownership 0 0 (only_pressed 3) init (by decide) (by decide)

/-- C19. Overflow freedom of the accumulator arithmetic: for every `n` up to
400000000 and every sequence of `n` snapshots from startup, the final
accumulator satisfies `0 ≤ l ≤ 5 n + 5`, before each of the `n` ticks the values
`ms + l`, `ms - l`, `duty + l`, `duty - l`, `l + 5` lie in the `int` range, and
the run equals the run computed in the unbounded integers. -/
theorem accumulator_no_overflow (n : Nat) (hn : n ≤ 400000000) (gs : List Nat)
    (hlen : gs.length = n) :
    0 ≤ (ticks gs init).l ∧ (ticks gs init).l ≤ 5 * (n : Int) + 5 ∧
    (∀ k, k < n →
      in_int32 ((ticks (gs.take k) init).ms + (ticks (gs.take k) init).l) ∧
      in_int32 ((ticks (gs.take k) init).ms - (ticks (gs.take k) init).l) ∧
      in_int32 ((ticks (gs.take k) init).duty + (ticks (gs.take k) init).l) ∧
      in_int32 ((ticks (gs.take k) init).duty - (ticks (gs.take k) init).l) ∧
      in_int32 ((ticks (gs.take k) init).l + 5)) ∧
    ticks gs init = ticks_unbounded gs init := by
  have ha := ticks_accBounded gs 0 init init_accBounded (by omega)
  rw [hlen, Nat.zero_add] at ha
  refine ⟨ha.2.2.1, ha.2.2.2, ?_, ?_⟩
  · intro k hk
    have hkl : (gs.take k).length = k := by rw [List.length_take]; omega
    have hb := ticks_accBounded (gs.take k) 0 init init_accBounded (by omega)
    have hd := ticks_dutyBounded (gs.take k) 0 init init_accBounded init_dutyBounded
      (by omega)
    rw [hkl, Nat.zero_add] at hb
    obtain ⟨b1, b2, b3, b4⟩ := hb
    obtain ⟨d1, d2⟩ := hd
    have hk' : (k : Int) < 400000000 := by exact_mod_cast lt_of_lt_of_le hk hn
    simp only [in_int32]
    omega
  · exact ticks_eq_unbounded gs 0 init init_accBounded init_dutyBounded (by omega)

/-- Witness for C19: reset followed by duty-down held for two ticks. -/
theorem accumulator_no_overflow_witness :
    (reset_then_hold 1 2).length = 3 ∧
    0 ≤ (ticks (reset_then_hold 1 2) init).l ∧
    (ticks (reset_then_hold 1 2) init).l ≤ 5 * ((3 : Nat) : Int) + 5 ∧
    ticks (reset_then_hold 1 2) init = ticks_unbounded (reset_then_hold 1 2) init :=
  have h := accumulator_no_overflow 3 (by decide) (reset_then_hold 1 2) rfl
  ⟨rfl, h.1, h.2.1, h.2.2.2⟩

/-- C20. Holding reset: for every `n ≥ 1` and every starting state with `K` in
`{0, 1, 2}`, after `n` consecutive ticks honouring reset the direction mode is
`(K + n) mod 3`, `ms = 250`, `duty = 2047` and the accumulator is 10. -/
theorem hold_reset (n : Nat) (hn : 1 ≤ n) (gs : List Nat) (hlen : gs.length = n)
    (hall : ∀ g, g ∈ gs → honoured g = some 3) (s : State)
    (hK : s.K = 0 ∨ s.K = 1 ∨ s.K = 2) :
    (ticks gs s).K = (s.K + (n : Int)) % 3 ∧ (ticks gs s).ms = 250 ∧
    (ticks gs s).duty = 2047 ∧ (ticks gs s).l = 10 := by
  have hne : gs ≠ [] := by
    intro h; rw [h] at hlen; simp at hlen; omega
  have h := ticks_reset_hold gs s hK hne hall
  rw [hlen] at h
  exact h

/-- Witness for C20: reset held for four ticks from startup ends in mode 1. -/
theorem hold_reset_witness :
    (List.replicate 4 (only_pressed 3)).length = 4 ∧
    (ticks (List.replicate 4 (only_pressed 3)) init).K = (init.K + ((4 : Nat) : Int)) % 3 ∧
    (ticks (List.replicate 4 (only_pressed 3)) init).l = 10 :=
  have h := hold_reset 4 (by decide) (List.replicate 4 (only_pressed 3)) rfl
    (by decide) init (Or.inl rfl)
  ⟨rfl, h.1, h.2.2.2⟩

end StepDrive
